import Mathlib

/-!
# mqweather: the polling-publish loop

A shallow embedding of `main.go` (`getConditions`, `watchWeather`),
`wunderground/wunderground.go` (`Wunderground.Conditions`) and
`wunderground/features/conditions.go` (`ConditionsResponse`, `Conditions`).

* Go `float64` values are modelled exactly: a finite value is a sign, an
  integer significand and a binary exponent; the product of two finite values
  is the exact rational product rounded to nearest, ties to even, at 53 bits
  (`Float64.mul_nearest`).
* Go `int` is an `Int` together with the width of the machine word.
* Go strings are `String`s; `fmt.Sprintf` with one `%s` or `%d` verb is string
  concatenation.
* A Go call either returns or panics: `Outcome`.
* The effects of `watchWeather` (fetch, publish, print, sleep) are recorded as
  a list of `Event`s.
-/

namespace Mqweather

/-! ## float64 -/

/-- A `float64`: `finite neg m e` is the number `(-1)^neg * m * 2^e`. -/
inductive Float64 where
  | finite (neg : Bool) (mant : Nat) (exp : Int)
  | inf (neg : Bool)
  | nan
  deriving DecidableEq, Repr

namespace Float64

def isFinite : Float64 → Bool
  | finite _ _ _ => true
  | _ => false

/-- The rational number a finite value denotes (0 for infinities and NaN). -/
def toRat : Float64 → ℚ
  | finite neg m e => (if neg then -1 else 1) * (m : ℚ) * (2 : ℚ) ^ e
  | _ => 0

/-- Number of binary digits of `n`, counted in at most `fuel` halvings. -/
def bitLengthAux : Nat → Nat → Nat
  | 0, _ => 0
  | fuel + 1, n => if n = 0 then 0 else bitLengthAux fuel (n / 2) + 1

/-- Number of binary digits of `n` (0 for 0). -/
def bitLength (n : Nat) : Nat := bitLengthAux n n

/-- Floor of the binary logarithm of `n / d`, for positive `n` and `d`. -/
def ilog2Ratio (n d : Nat) : Int :=
  let l : Int := (bitLength n : Int) - (bitLength d : Int)
  if 0 ≤ l then
    if d * 2 ^ l.toNat ≤ n then l else l - 1
  else
    if d ≤ n * 2 ^ (-l).toNat then l else l - 1

/-- The integer nearest to `num / den`, the even one of two equally near. -/
def roundHalfEven (num den : Nat) : Nat :=
  let q := num / den
  let r := num % den
  if den < 2 * r ∨ (2 * r = den ∧ q % 2 = 1) then q + 1 else q

/-- The exponent of the last place of the `float64` nearest to `n / d`: 52
below the binary logarithm, and not below -1074. -/
def roundExponent (n d : Nat) : Int := max (ilog2Ratio n d - 52) (-1074)

/-- The rational `n / d` in units of `2^e`, rounded to an integer. -/
def scaledSignificand (n d : Nat) (e : Int) : Nat :=
  if 0 ≤ e then roundHalfEven n (d * 2 ^ e.toNat)
  else roundHalfEven (n * 2 ^ (-e).toNat) d

/-- The `float64` of magnitude `q * 2^e` for `q ≤ 2^53`; an infinity from
`2^1024` on. -/
def pack (neg : Bool) (q : Nat) (e : Int) : Float64 :=
  if q = 2 ^ 53 then
    if 971 < e + 1 then inf neg else finite neg (2 ^ 52) (e + 1)
  else
    if 971 < e then inf neg else finite neg q e

/-- Round the positive rational `n / d` to the nearest `float64`, ties to
even significand; a result of `2^1024` or more is an infinity. -/
def roundRatio (neg : Bool) (n d : Nat) : Float64 :=
  pack neg (scaledSignificand n d (roundExponent n d)) (roundExponent n d)

/-- The `float64` nearest to the decimal `(-1)^neg * n / 10^scale`, as
`strconv.ParseFloat` and the compiler produce it from a decimal literal. -/
def ofDecimal (neg : Bool) (n scale : Nat) : Float64 :=
  if n = 0 then finite neg 0 (-1074) else roundRatio neg n (10 ^ scale)

/-- The `float64` product `x * y`. -/
def mul : Float64 → Float64 → Float64
  | nan, _ => nan
  | _, nan => nan
  | inf s, inf t => inf (xor s t)
  | inf s, finite t m _ => if m = 0 then nan else inf (xor s t)
  | finite s m _, inf t => if m = 0 then nan else inf (xor s t)
  | finite s m1 e1, finite t m2 e2 =>
    if m1 * m2 = 0 then finite (xor s t) 0 (-1074)
    else
      let e := e1 + e2
      if 0 ≤ e then roundRatio (xor s t) (m1 * m2 * 2 ^ e.toNat) 1
      else roundRatio (xor s t) (m1 * m2) (2 ^ (-e).toNat)

/-- The fraction of a finite value discarded: its integer part, the sign kept. -/
def truncate : Float64 → Option Int
  | finite neg m e =>
    let a : Nat := if 0 ≤ e then m * 2 ^ e.toNat else m / 2 ^ (-e).toNat
    some (if neg then -(a : Int) else (a : Int))
  | _ => none

end Float64

/-- What the conversion `int(f)` depends on besides `f`: the width of `int`,
and the implementation-dependent result when the value is not representable. -/
structure Runtime where
  intBits : Nat
  convUnrepresentable : Float64 → Int

/-- An integer fits the machine `int`. -/
def fitsInt (rt : Runtime) (i : Int) : Prop :=
  -(2 : Int) ^ (rt.intBits - 1) ≤ i ∧ i < (2 : Int) ^ (rt.intBits - 1)

instance (rt : Runtime) (i : Int) : Decidable (fitsInt rt i) := by
  unfold fitsInt; infer_instance

/-- The conversion `int(f)` of a `float64`. -/
def floatToInt (rt : Runtime) (f : Float64) : Int :=
  match f.truncate with
  | some t => if fitsInt rt t then t else rt.convUnrepresentable f
  | none => rt.convUnrepresentable f

/-- The constant `1000` converted to `float64`. -/
def thousand : Float64 := .finite false 1000 0

/-- `fmt.Sprintf("%d", i)`: the decimal digits, a leading `-` when negative. -/
def sprintfD (i : Int) : String := toString i

/-- `fmt.Sprintf("%d", int(f*1000))`. -/
def scaledPayload (rt : Runtime) (f : Float64) : String :=
  sprintfD (floatToInt rt (f.mul thousand))

/-! ## Strings -/

/-- `strings.Replace(s, old, new, n)` for a pattern `old` of one character and
`n ≥ 0`: the first `n` occurrences of `old` are replaced by `new`. -/
def replaceChars (old : Char) (new : List Char) : Nat → List Char → List Char
  | 0, s => s
  | _ + 1, [] => []
  | n + 1, c :: cs =>
    if c = old then new ++ replaceChars old new n cs
    else c :: replaceChars old new (n + 1) cs

/-- `strings.Replace(s, "%", "", 1)`. -/
def stripPercent (s : String) : String := ⟨replaceChars '%' [] 1 s.data⟩

/-! ## Outcomes of calls -/

/-- The two ways the code panics. -/
inductive Panic where
  | nilDereference
  | logPanic (msg : String)
  deriving DecidableEq, Repr

/-- A Go call returns a value or panics. -/
inductive Outcome (α : Type) where
  | ret (a : α)
  | panic (p : Panic)
  deriving DecidableEq, Repr

/-- A Go `error` value that is not nil, by its message. -/
abbrev Error := String

/-! ## wunderground/features -/

/-- `features.Conditions`. -/
structure Conditions where
  TempC : Float64
  RelativeHumidity : String
  WindKPH : Float64
  PressureMB : String
  DewpointC : Float64
  deriving DecidableEq, Repr

/-- The zero value `features.Conditions{}`. -/
def Conditions.zero : Conditions :=
  ⟨.finite false 0 (-1074), "", .finite false 0 (-1074), "", .finite false 0 (-1074)⟩

/-- `features.ConditionsResponse`: two pointers, either of which the JSON
decoder leaves nil when the key is absent. The type `Response` of the first
is a parameter. -/
structure ConditionsResponse (Response : Type) where
  Response : Option Response
  Condition : Option Conditions

/-! ## wunderground -/

/-- `wunderground.Wunderground`, without the HTTP client. -/
structure Wunderground where
  apiKey : String
  apiHost : String
  deriving DecidableEq, Repr

/-- The URL `Wunderground.Conditions` requests. -/
def conditionsUrl (w : Wunderground) (station : String) : String :=
  w.apiHost ++ "/api/" ++ w.apiKey ++ "/conditions/q/" ++ station ++ ".json"

/-- What the HTTP client and the JSON decoder do with one request:
`makeRequest` returns `(nil, err)`; or it returns a response whose body
`Decode` rejects with `err`; or the body decodes. -/
inductive FetchResult (Response : Type) where
  | requestFailed (err : Error)
  | undecodable (err : Error)
  | decoded (cond : ConditionsResponse Response)

/-- `Wunderground.Conditions`. `hasError` is the method `Response.HasError`
applied to the pointer `cond.Response`, a parameter.

With `resp` nil, `defer resp.Body.Close()` dereferences it before `err` is
looked at. -/
def Wunderground.Conditions {Response : Type}
    (hasError : Option Response → Outcome (Option Error)) :
    FetchResult Response → Outcome (Option (ConditionsResponse Response) × Option Error)
  | .requestFailed _ => .panic .nilDereference
  | .undecodable err => .panic (.logPanic ("Error unmarshalling condition body " ++ err))
  | .decoded cond =>
    match hasError cond.Response with
    | .panic p => .panic p
    | .ret (some err) => .ret (none, some err)
    | .ret none => .ret (some cond, none)

/-! ## main -/

/-- `mainFlags`. -/
structure MainFlags where
  Host : String
  Port : Int
  ApiKey : String
  Station : String
  Interval : Int
  deriving DecidableEq, Repr

/-- `getConditions`: a pointer to the conditions and an error. -/
def getConditions {Response : Type}
    (hasError : Option Response → Outcome (Option Error))
    (fetch : FetchResult Response) : Outcome (Option Conditions × Option Error) :=
  match Wunderground.Conditions hasError fetch with
  | .panic p => .panic p
  | .ret (_, some err) => .ret (some Conditions.zero, some err)
  | .ret (none, none) => .panic .nilDereference
  | .ret (some conditions, none) => .ret (conditions.Condition, none)

/-- What the broker client reports for one `Publish`: the value of
`token.Wait()` and of `token.Error()`. -/
structure PublishResult where
  wait : Bool
  error : Option Error
  deriving DecidableEq, Repr

/-- What `watchWeather` does to the outside. -/
inductive Event where
  | fetch (url : String)
  | publish (topic : String) (qos : Nat) (retained : Bool) (payload : String)
  | print (text : String)
  | sleep (nanoseconds : Int)
  | panic (p : Panic)
  deriving DecidableEq, Repr

/-- A 64-bit signed integer after overflow. -/
def wrapInt64 (i : Int) : Int := (i + 2 ^ 63) % 2 ^ 64 - 2 ^ 63

/-- `time.Duration(mainFlags.Interval) * time.Second`, in nanoseconds. -/
def sleepDuration (flags : MainFlags) : Int := wrapInt64 (flags.Interval * 1000000000)

/-- One `client.Publish(topic, 0, false, payload)` and the `if` around it. -/
def publishStep (topic payload : String) (res : PublishResult) : List Event :=
  Event.publish topic 0 false payload ::
    match res.wait, res.error with
    | true, some err => [Event.print ("Failed to send message: " ++ err ++ "\n")]
    | _, _ => []

/-- The world during one iteration of the loop: the fetch, and the broker's
answer to each of the five publish calls in order. -/
structure CycleEnv (Response : Type) where
  fetch : FetchResult Response
  broker : Fin 5 → PublishResult

/-- One iteration of the loop of `watchWeather`: the events in order, and the
panic that ends the goroutine, if any. -/
def watchWeatherCycle {Response : Type} (rt : Runtime) (flags : MainFlags) (w : Wunderground)
    (hasError : Option Response → Outcome (Option Error)) (env : CycleEnv Response) :
    List Event × Option Panic :=
  let fetched := Event.fetch (conditionsUrl w flags.Station)
  match getConditions hasError env.fetch with
  | .panic p => ([fetched], some p)
  | .ret (_, some err) =>
    ([fetched, Event.print ("Could not read weather " ++ err ++ "\n"),
      Event.sleep (sleepDuration flags)], none)
  | .ret (none, none) => ([fetched], some .nilDereference)
  | .ret (some conditions, none) =>
    (fetched ::
      (publishStep ("mqweather/" ++ flags.Station ++ "/temperature")
          (scaledPayload rt conditions.TempC) (env.broker 0)
        ++ publishStep ("mqweather/" ++ flags.Station ++ "/dewpoint")
          (scaledPayload rt conditions.DewpointC) (env.broker 1)
        ++ publishStep ("mqweather/" ++ flags.Station ++ "/wind")
          (scaledPayload rt conditions.WindKPH) (env.broker 2)
        ++ publishStep ("mqweather/" ++ flags.Station ++ "/pressure")
          conditions.PressureMB (env.broker 3)
        ++ publishStep ("mqweather/" ++ flags.Station ++ "/humidity")
          (stripPercent conditions.RelativeHumidity) (env.broker 4)
        ++ [Event.sleep (sleepDuration flags)]), none)

/-- The loop `for { ... }` of `watchWeather` over the first iterations, one
per element of the list; a panic ends it. -/
def watchWeather {Response : Type} (rt : Runtime) (flags : MainFlags) (w : Wunderground)
    (hasError : Option Response → Outcome (Option Error)) :
    List (CycleEnv Response) → List Event
  | [] => []
  | env :: rest =>
    match watchWeatherCycle rt flags w hasError env with
    | (events, none) => events ++ watchWeather rt flags w hasError rest
    | (events, some p) => events ++ [Event.panic p]

/-! ## Reading traces -/

/-- The publish attempts of a trace, as topic and payload, in order. -/
def publishAttempts : List Event → List (String × String)
  | [] => []
  | Event.publish topic _ _ payload :: rest => (topic, payload) :: publishAttempts rest
  | _ :: rest => publishAttempts rest

/-- Where the loop stands between two events: before a fetch, inside an
iteration after its fetch, or ended by a panic. -/
inductive Phase where
  | idle
  | inCycle
  | stopped
  deriving DecidableEq, Repr

/-- The step relation of the loop over events: a fetch only starts an
iteration, publishes and prints only happen inside one, a sleep closes it. -/
def Phase.step : Phase → Event → Option Phase
  | .idle, .fetch _ => some .inCycle
  | .inCycle, .publish _ _ _ _ => some .inCycle
  | .inCycle, .print _ => some .inCycle
  | .inCycle, .sleep _ => some .idle
  | .inCycle, .panic _ => some .stopped
  | _, _ => none

/-- The phase a trace leads to from a phase, when every event is a step. -/
def Phase.run : Phase → List Event → Option Phase
  | ph, [] => some ph
  | ph, ev :: rest =>
    match ph.step ev with
    | some next => next.run rest
    | none => none

/-- Truncation of a rational toward zero. -/
def truncTowardZero (q : ℚ) : Int := if 0 ≤ q then ⌊q⌋ else ⌈q⌉

/-! ## Concrete inputs -/

/-- A 64-bit platform whose out-of-range conversion gives the least `int`. -/
def amd64 : Runtime := ⟨64, fun _ => -(2 : Int) ^ 63⟩

/-- The reading `{tempC:20.1234, dewC:15.0, windKPH:10.9999,
pressureMB:"1013.2", relativeHumidity:"65%"}`. -/
def sampleReading : Conditions :=
  { TempC := Float64.ofDecimal false 201234 4
    RelativeHumidity := "65%"
    WindKPH := Float64.ofDecimal false 109999 4
    PressureMB := "1013.2"
    DewpointC := Float64.ofDecimal false 150 1 }

def sampleFlags : MainFlags :=
  { Host := "localhost", Port := 1883, ApiKey := "key", Station := "KXATEST1", Interval := 60 }

def sampleApi : Wunderground := ⟨"key", "http://api.wunderground.com"⟩

/-- A `HasError` on a response without fields: never an error. -/
def noError : Option Unit → Outcome (Option Error) := fun _ => .ret none

/-- A `HasError` on a response that is its own error status. -/
def statusError : Option (Option Error) → Outcome (Option Error)
  | some (some err) => .ret (some err)
  | _ => .ret none

/-- A broker that confirms every publish. -/
def brokerOk : Fin 5 → PublishResult := fun _ => ⟨true, none⟩

/-- A broker that rejects exactly the third publish, the wind. -/
def brokerRejectsWind : Fin 5 → PublishResult :=
  fun i => if i = 2 then ⟨true, some "rejected"⟩ else ⟨true, none⟩

/-- The spec's reading, fetched without error. -/
def sampleEnv : CycleEnv Unit := ⟨.decoded ⟨some (), some sampleReading⟩, brokerOk⟩

/-- The spec's reading, with the broker rejecting the wind. -/
def windRejectedEnv : CycleEnv Unit := ⟨.decoded ⟨some (), some sampleReading⟩, brokerRejectsWind⟩

/-- A reading of 21.567 degrees with dewpoint -3.0001, no pressure sensor and
57% humidity. -/
def sentinelReading : Conditions :=
  { TempC := Float64.ofDecimal false 21567 3
    RelativeHumidity := "57%"
    WindKPH := Float64.ofDecimal false 109999 4
    PressureMB := "-9999.00"
    DewpointC := Float64.ofDecimal true 30001 4 }

def sentinelEnv : CycleEnv Unit := ⟨.decoded ⟨some (), some sentinelReading⟩, brokerOk⟩

/-- A reading whose humidity string carries two percent signs. -/
def doublePercentReading : Conditions :=
  { sampleReading with RelativeHumidity := "100%%" }

def doublePercentEnv : CycleEnv Unit := ⟨.decoded ⟨some (), some doublePercentReading⟩, brokerOk⟩

/-- The provider answers with an error status. -/
def rejectedEnv : CycleEnv (Option Error) :=
  ⟨.decoded ⟨some (some "keynotfound"), none⟩, brokerOk⟩

/-- The provider answers with a body that is not the expected JSON. -/
def undecodableEnv : CycleEnv Unit := ⟨.undecodable "unexpected EOF", brokerOk⟩

/-- The provider cannot be reached. -/
def unreachableEnv : CycleEnv Unit := ⟨.requestFailed "connection refused", brokerOk⟩

/-- The provider answers without an error status and without a
`current_observation` object. -/
def noObservationEnv : CycleEnv Unit := ⟨.decoded ⟨some (), none⟩, brokerOk⟩

/-! ## Lemmas: float64 to int -/

theorem Float64.truncate_finite (neg : Bool) (m : Nat) (e : Int) :
    (Float64.finite neg m e).truncate
      = some (truncTowardZero (Float64.finite neg m e).toRat) := by
  have key : ∀ a : ℕ, (if neg then -(a : Int) else (a : Int))
      = truncTowardZero ((if neg then -1 else 1) * (a : ℚ)) := by
    intro a
    unfold truncTowardZero
    cases neg
    · have h0 : (0 : ℚ) ≤ (a : ℚ) := Nat.cast_nonneg a
      simp [h0]
    · by_cases ha : a = 0
      · subst ha; simp
      · have hpos : (0 : ℚ) < (a : ℚ) := by exact_mod_cast Nat.pos_of_ne_zero ha
        have hneg : ¬ (0 : ℚ) ≤ -1 * (a : ℚ) := by linarith
        simp only [if_true]
        rw [if_neg hneg]
        have : (-1 : ℚ) * (a : ℚ) = ((-(a : Int) : Int) : ℚ) := by push_cast; ring
        rw [this, Int.ceil_intCast]
  unfold Float64.truncate Float64.toRat
  simp only []
  congr 1
  by_cases he : 0 ≤ e
  · obtain ⟨k, rfl⟩ := Int.eq_ofNat_of_zero_le he
    simp only [he, if_true, Int.toNat_ofNat]
    rw [key]
    congr 1
    push_cast
    rw [zpow_natCast]
    ring
  · have hk : 0 ≤ -e := by omega
    obtain ⟨k, hk'⟩ := Int.eq_ofNat_of_zero_le hk
    have he' : e = -(k : Int) := by omega
    subst he'
    simp only [he, if_false, neg_neg, Int.toNat_ofNat]
    cases neg
    · simp only [Bool.false_eq_true, if_false, one_mul]
      unfold truncTowardZero
      have hq : (0 : ℚ) ≤ (m : ℚ) * (2 : ℚ) ^ (-(k : Int)) := by positivity
      rw [if_pos hq, zpow_neg, zpow_natCast, ← div_eq_mul_inv]
      have : ((2 : ℚ) ^ k) = ((2 ^ k : ℕ) : ℚ) := by push_cast; rfl
      rw [this, Rat.floor_natCast_div_natCast]
      norm_cast
    · simp only [if_true]
      unfold truncTowardZero
      have hx : (-1 : ℚ) * (m : ℚ) * (2 : ℚ) ^ (-(k : Int))
          = -((m : ℚ) / ((2 ^ k : ℕ) : ℚ)) := by
        rw [zpow_neg, zpow_natCast]; push_cast; ring
      rw [hx]
      by_cases hq : (0 : ℚ) ≤ -((m : ℚ) / ((2 ^ k : ℕ) : ℚ))
      · rw [if_pos hq]
        have hnn : (0 : ℚ) ≤ (m : ℚ) / ((2 ^ k : ℕ) : ℚ) := by positivity
        have hz : (m : ℚ) / ((2 ^ k : ℕ) : ℚ) = 0 := le_antisymm (by linarith) hnn
        have hfl := Rat.floor_natCast_div_natCast m (2 ^ k)
        rw [hz] at hfl ⊢
        simp at hfl ⊢
        omega
      · rw [if_neg hq, Int.ceil_neg, Rat.floor_natCast_div_natCast]
        norm_cast

theorem scaledPayload_of_fits (rt : Runtime) (x : Float64)
    (hfin : (x.mul thousand).isFinite = true)
    (hfit : fitsInt rt (truncTowardZero (x.mul thousand).toRat)) :
    scaledPayload rt x = toString (truncTowardZero (x.mul thousand).toRat) := by
  unfold scaledPayload sprintfD floatToInt
  cases hx : x.mul thousand with
  | finite neg m e =>
    rw [hx] at hfit
    rw [Float64.truncate_finite]
    simp only [hfit, if_true]
  | inf neg => rw [hx] at hfin; simp [Float64.isFinite] at hfin
  | nan => rw [hx] at hfin; simp [Float64.isFinite] at hfin

theorem wrapInt64_of_fits (i : Int) (h : -(2 : Int) ^ 63 ≤ i ∧ i < (2 : Int) ^ 63) :
    wrapInt64 i = i := by
  unfold wrapInt64
  have h1 : (i + 2 ^ 63) % 2 ^ 64 = i + 2 ^ 63 :=
    Int.emod_eq_of_lt (by omega) (by omega)
  rw [h1]; ring

/-! ## Lemmas: rounding to float64 -/

theorem Float64.bitLengthAux_zero (fuel : Nat) : Float64.bitLengthAux fuel 0 = 0 := by
  cases fuel <;> simp [Float64.bitLengthAux]

theorem Float64.bitLengthAux_spec (fuel n : Nat) (h : n ≤ fuel) :
    n < 2 ^ Float64.bitLengthAux fuel n
      ∧ (0 < n → 2 ^ (Float64.bitLengthAux fuel n - 1) ≤ n
          ∧ 0 < Float64.bitLengthAux fuel n) := by
  induction fuel generalizing n with
  | zero =>
    have hn : n = 0 := by omega
    subst hn
    simp [Float64.bitLengthAux]
  | succ fuel ih =>
    by_cases hn : n = 0
    · subst hn
      simp [Float64.bitLengthAux]
    · have hhalf : n / 2 ≤ fuel := by omega
      obtain ⟨hlt, hge⟩ := ih (n / 2) hhalf
      simp only [Float64.bitLengthAux, hn, if_false, Nat.add_sub_cancel]
      refine ⟨?_, fun _ => ⟨?_, Nat.succ_pos _⟩⟩
      · rw [pow_succ]; omega
      · by_cases h2 : n / 2 = 0
        · rw [h2, Float64.bitLengthAux_zero]
          simp; omega
        · obtain ⟨hlow, hpos⟩ := hge (Nat.pos_of_ne_zero h2)
          have hp : 2 ^ Float64.bitLengthAux fuel (n / 2)
              = 2 * 2 ^ (Float64.bitLengthAux fuel (n / 2) - 1) := by
            rw [← pow_succ']
            congr 1
            omega
          rw [hp]; omega

theorem Float64.bitLength_spec (n : Nat) (hn : 0 < n) :
    ∃ a : Nat, Float64.bitLength n = a + 1 ∧ 2 ^ a ≤ n ∧ n < 2 ^ (a + 1) := by
  obtain ⟨hlt, hge⟩ := Float64.bitLengthAux_spec n n le_rfl
  obtain ⟨hlow, hpos⟩ := hge hn
  refine ⟨Float64.bitLength n - 1, ?_, hlow, ?_⟩
  · unfold Float64.bitLength; omega
  · have : Float64.bitLength n - 1 + 1 = Float64.bitLength n := by
      unfold Float64.bitLength; omega
    rw [this]; exact hlt

theorem two_zpow_natCast (k : Nat) : (2 : ℚ) ^ (k : Int) = ((2 ^ k : Nat) : ℚ) := by
  rw [zpow_natCast]; push_cast; rfl

theorem two_zpow_neg_mul (k : Nat) : (2 : ℚ) ^ (-(k : Int)) * ((2 ^ k : Nat) : ℚ) = 1 := by
  rw [zpow_neg, two_zpow_natCast]
  have h : ((2 ^ k : Nat) : ℚ) ≠ 0 := by positivity
  exact inv_mul_cancel₀ h

theorem two_zpow_pos (l : Int) : (0 : ℚ) < (2 : ℚ) ^ l := by positivity

set_option maxHeartbeats 800000 in
theorem Float64.ilog2Ratio_spec (n d : Nat) (hn : 0 < n) (hd : 0 < d) :
    (2 : ℚ) ^ Float64.ilog2Ratio n d * (d : ℚ) ≤ (n : ℚ)
      ∧ (n : ℚ) < (2 : ℚ) ^ (Float64.ilog2Ratio n d + 1) * (d : ℚ) := by
  obtain ⟨a, ha, ha1, ha2⟩ := Float64.bitLength_spec n hn
  obtain ⟨b, hb, hb1, hb2⟩ := Float64.bitLength_spec d hd
  unfold Float64.ilog2Ratio
  simp only [ha, hb]
  by_cases hab : b ≤ a
  · obtain ⟨k, rfl⟩ := Nat.exists_eq_add_of_le hab
    have hl : ((b + k + 1 : Nat) : Int) - ((b + 1 : Nat) : Int) = (k : Int) := by
      push_cast; ring
    rw [hl]
    simp only [Int.natCast_nonneg, if_true, Int.toNat_ofNat]
    have hpow : 2 ^ (b + k + 1) = 2 ^ b * 2 ^ k * 2 := by ring
    rw [hpow] at ha2
    have hpow' : 2 ^ (b + k) = 2 ^ b * 2 ^ k := by ring
    rw [hpow'] at ha1
    have hpow2 : 2 ^ (b + 1) = 2 ^ b * 2 := by ring
    rw [hpow2] at hb2
    have hkpos : 0 < 2 ^ k := by positivity
    by_cases ht : d * 2 ^ k ≤ n
    · simp only [ht, if_true]
      constructor
      · rw [two_zpow_natCast]
        have : 2 ^ k * d ≤ n := by rw [mul_comm]; exact ht
        exact_mod_cast this
      · have hk1 : (k : Int) + 1 = ((k + 1 : Nat) : Int) := by push_cast; ring
        rw [hk1, two_zpow_natCast]
        have : n < 2 ^ (k + 1) * d := by
          have h1 : 2 ^ b * 2 ^ k ≤ d * 2 ^ k := Nat.mul_le_mul_right _ hb1
          rw [pow_succ]; linarith
        exact_mod_cast this
    · simp only [ht, if_false]
      have hlt : n < d * 2 ^ k := Nat.lt_of_not_le ht
      constructor
      · have hs : (2 : ℚ) ^ ((k : Int) - 1) * 2 = (2 : ℚ) ^ (k : Int) := by
          rw [zpow_sub_one₀ (by norm_num : (2 : ℚ) ≠ 0)]
          field_simp
        rw [two_zpow_natCast] at hs
        have h2 : d * 2 ^ k ≤ 2 * n := by
          have h1 : d * 2 ^ k < 2 ^ b * 2 * 2 ^ k := Nat.mul_lt_mul_of_pos_right hb2 hkpos
          linarith
        have h2q : (d : ℚ) * ((2 ^ k : Nat) : ℚ) ≤ 2 * (n : ℚ) := by exact_mod_cast h2
        rw [← hs] at h2q
        have hP := two_zpow_pos ((k : Int) - 1)
        linarith
      · have hk1 : (k : Int) - 1 + 1 = (k : Int) := by ring
        rw [hk1, two_zpow_natCast]
        have : n < 2 ^ k * d := by rw [mul_comm]; exact hlt
        exact_mod_cast this
  · have hba : a + 1 ≤ b := by omega
    obtain ⟨k, rfl⟩ := Nat.exists_eq_add_of_le hba
    have hl : ((a + 1 : Nat) : Int) - ((a + 1 + k + 1 : Nat) : Int) = -((k + 1 : Nat) : Int) := by
      push_cast; ring
    rw [hl]
    have hneg : ¬ (0 : Int) ≤ -((k + 1 : Nat) : Int) := by push_cast; omega
    simp only [hneg, if_false, neg_neg, Int.toNat_ofNat]
    have hpow : 2 ^ (a + 1 + k + 1) = 2 ^ a * 2 ^ (k + 1) * 2 := by ring
    rw [hpow] at hb2
    have hpow' : 2 ^ (a + 1 + k) = 2 ^ a * 2 ^ (k + 1) := by ring
    rw [hpow'] at hb1
    have hpow2 : 2 ^ (a + 1) = 2 ^ a * 2 := by ring
    rw [hpow2] at ha2
    have hjpos : 0 < 2 ^ (k + 1) := by positivity
    have hone := two_zpow_neg_mul (k + 1)
    have hP := two_zpow_pos (-((k + 1 : Nat) : Int))
    by_cases ht : d ≤ n * 2 ^ (k + 1)
    · simp only [ht, if_true]
      have htq : (d : ℚ) ≤ (n : ℚ) * ((2 ^ (k + 1) : Nat) : ℚ) := by exact_mod_cast ht
      constructor
      · calc (2 : ℚ) ^ (-((k + 1 : Nat) : Int)) * (d : ℚ)
            ≤ (2 : ℚ) ^ (-((k + 1 : Nat) : Int)) * ((n : ℚ) * ((2 ^ (k + 1) : Nat) : ℚ)) :=
              mul_le_mul_of_nonneg_left htq hP.le
          _ = (n : ℚ) * ((2 : ℚ) ^ (-((k + 1 : Nat) : Int)) * ((2 ^ (k + 1) : Nat) : ℚ)) := by
              ring
          _ = (n : ℚ) := by rw [hone, mul_one]
      · have hs : (2 : ℚ) ^ (-((k + 1 : Nat) : Int) + 1)
            = (2 : ℚ) ^ (-((k + 1 : Nat) : Int)) * 2 := by
          rw [zpow_add_one₀ (by norm_num : (2 : ℚ) ≠ 0)]
        rw [hs]
        have h2 : n * 2 ^ (k + 1) < 2 * d := by
          have h1 : n * 2 ^ (k + 1) < 2 ^ a * 2 * 2 ^ (k + 1) :=
            Nat.mul_lt_mul_of_pos_right ha2 hjpos
          linarith
        have h2q : (n : ℚ) * ((2 ^ (k + 1) : Nat) : ℚ) < 2 * (d : ℚ) := by exact_mod_cast h2
        calc (n : ℚ) = (2 : ℚ) ^ (-((k + 1 : Nat) : Int))
              * ((n : ℚ) * ((2 ^ (k + 1) : Nat) : ℚ)) := by
              rw [mul_comm (n : ℚ), ← mul_assoc, hone, one_mul]
          _ < (2 : ℚ) ^ (-((k + 1 : Nat) : Int)) * (2 * (d : ℚ)) :=
              mul_lt_mul_of_pos_left h2q hP
          _ = (2 : ℚ) ^ (-((k + 1 : Nat) : Int)) * 2 * (d : ℚ) := by ring
    · simp only [ht, if_false]
      have hlt : n * 2 ^ (k + 1) < d := Nat.lt_of_not_le ht
      have hltq : (n : ℚ) * ((2 ^ (k + 1) : Nat) : ℚ) < (d : ℚ) := by exact_mod_cast hlt
      constructor
      · have hs : (2 : ℚ) ^ (-((k + 1 : Nat) : Int) - 1) * 2
            = (2 : ℚ) ^ (-((k + 1 : Nat) : Int)) := by
          rw [zpow_sub_one₀ (by norm_num : (2 : ℚ) ≠ 0)]
          field_simp
        have h2 : d ≤ 2 * (n * 2 ^ (k + 1)) := by
          have h1 : 2 ^ a * 2 ^ (k + 1) ≤ n * 2 ^ (k + 1) := Nat.mul_le_mul_right _ ha1
          linarith
        have h2q : (d : ℚ) ≤ 2 * ((n : ℚ) * ((2 ^ (k + 1) : Nat) : ℚ)) := by exact_mod_cast h2
        have hP' := two_zpow_pos (-((k + 1 : Nat) : Int) - 1)
        calc (2 : ℚ) ^ (-((k + 1 : Nat) : Int) - 1) * (d : ℚ)
            ≤ (2 : ℚ) ^ (-((k + 1 : Nat) : Int) - 1)
                * (2 * ((n : ℚ) * ((2 ^ (k + 1) : Nat) : ℚ))) :=
              mul_le_mul_of_nonneg_left h2q hP'.le
          _ = (n : ℚ) * ((2 : ℚ) ^ (-((k + 1 : Nat) : Int) - 1) * 2
                * ((2 ^ (k + 1) : Nat) : ℚ)) := by ring
          _ = (n : ℚ) := by rw [hs, hone, mul_one]
      · have hk1 : -((k + 1 : Nat) : Int) - 1 + 1 = -((k + 1 : Nat) : Int) := by ring
        rw [hk1]
        calc (n : ℚ) = (2 : ℚ) ^ (-((k + 1 : Nat) : Int))
              * ((n : ℚ) * ((2 ^ (k + 1) : Nat) : ℚ)) := by
              rw [mul_comm (n : ℚ), ← mul_assoc, hone, one_mul]
          _ < (2 : ℚ) ^ (-((k + 1 : Nat) : Int)) * (d : ℚ) :=
              mul_lt_mul_of_pos_left hltq hP

theorem Float64.roundHalfEven_spec (num den : Nat) (hden : 0 < den) :
    |((Float64.roundHalfEven num den : Nat) : ℚ) - (num : ℚ) / (den : ℚ)| ≤ 1 / 2
      ∧ (|((Float64.roundHalfEven num den : Nat) : ℚ) - (num : ℚ) / (den : ℚ)| = 1 / 2 →
          Float64.roundHalfEven num den % 2 = 0) := by
  have hD : (0 : ℚ) < (den : ℚ) := by exact_mod_cast hden
  have hsplit : (num : ℚ) = (den : ℚ) * ((num / den : Nat) : ℚ) + ((num % den : Nat) : ℚ) := by
    exact_mod_cast (Nat.div_add_mod num den).symm
  have hr : num % den < den := Nat.mod_lt _ hden
  have hrq : ((num % den : Nat) : ℚ) < (den : ℚ) := by exact_mod_cast hr
  have hr0 : (0 : ℚ) ≤ ((num % den : Nat) : ℚ) := Nat.cast_nonneg _
  have hY : (num : ℚ) / (den : ℚ)
      = ((num / den : Nat) : ℚ) + ((num % den : Nat) : ℚ) / (den : ℚ) := by
    field_simp
    linarith
  unfold Float64.roundHalfEven
  simp only []
  by_cases hup : den < 2 * (num % den) ∨ (2 * (num % den) = den ∧ num / den % 2 = 1)
  · rw [if_pos hup]
    have h2r : den ≤ 2 * (num % den) := by rcases hup with h | h <;> omega
    have h2rq : (den : ℚ) ≤ 2 * ((num % den : Nat) : ℚ) := by exact_mod_cast h2r
    have hdiff : (((num / den + 1 : Nat) : ℚ)) - (num : ℚ) / (den : ℚ)
        = 1 - ((num % den : Nat) : ℚ) / (den : ℚ) := by
      rw [hY]; push_cast; ring
    have hfrac1 : ((num % den : Nat) : ℚ) / (den : ℚ) < 1 := (div_lt_one hD).2 hrq
    have hfrac2 : 1 / 2 ≤ ((num % den : Nat) : ℚ) / (den : ℚ) := by
      rw [le_div_iff₀ hD]; linarith
    rw [hdiff]
    constructor
    · rw [abs_le]; constructor <;> linarith
    · intro htie
      have hnn : (0 : ℚ) ≤ 1 - ((num % den : Nat) : ℚ) / (den : ℚ) := by linarith
      rw [abs_of_nonneg hnn] at htie
      have hhalf : ((num % den : Nat) : ℚ) / (den : ℚ) = 1 / 2 := by linarith
      rw [div_eq_iff hD.ne'] at hhalf
      have heq : 2 * (num % den) = den := by
        have : (2 : ℚ) * ((num % den : Nat) : ℚ) = (den : ℚ) := by linarith
        exact_mod_cast this
      rcases hup with h | h
      · omega
      · omega
  · rw [if_neg hup]
    have h2r : 2 * (num % den) ≤ den := by
      by_contra hc
      exact hup (Or.inl (by omega))
    have h2rq : 2 * ((num % den : Nat) : ℚ) ≤ (den : ℚ) := by exact_mod_cast h2r
    have hdiff : (((num / den : Nat) : ℚ)) - (num : ℚ) / (den : ℚ)
        = -(((num % den : Nat) : ℚ) / (den : ℚ)) := by
      rw [hY]; ring
    have hfrac0 : 0 ≤ ((num % den : Nat) : ℚ) / (den : ℚ) := div_nonneg hr0 hD.le
    have hfrac2 : ((num % den : Nat) : ℚ) / (den : ℚ) ≤ 1 / 2 := by
      rw [div_le_iff₀ hD]; linarith
    rw [hdiff, abs_neg, abs_of_nonneg hfrac0]
    refine ⟨hfrac2, ?_⟩
    intro htie
    rw [div_eq_iff hD.ne'] at htie
    have heq : 2 * (num % den) = den := by
      have : (2 : ℚ) * ((num % den : Nat) : ℚ) = (den : ℚ) := by linarith
      exact_mod_cast this
    by_contra hodd
    exact hup (Or.inr ⟨heq, by omega⟩)

theorem Float64.scaledSignificand_spec (n d : Nat) (e : Int) (hd : 0 < d) :
    |((Float64.scaledSignificand n d e : Nat) : ℚ) * (2 : ℚ) ^ e - (n : ℚ) / (d : ℚ)|
        ≤ (2 : ℚ) ^ e / 2
      ∧ (|((Float64.scaledSignificand n d e : Nat) : ℚ) * (2 : ℚ) ^ e - (n : ℚ) / (d : ℚ)|
          = (2 : ℚ) ^ e / 2 → Float64.scaledSignificand n d e % 2 = 0) := by
  have hE := two_zpow_pos e
  have hdq : (0 : ℚ) < (d : ℚ) := by exact_mod_cast hd
  have key : ∀ num den : Nat, 0 < den →
      (num : ℚ) / (den : ℚ) * (2 : ℚ) ^ e = (n : ℚ) / (d : ℚ) →
      |((Float64.roundHalfEven num den : Nat) : ℚ) * (2 : ℚ) ^ e - (n : ℚ) / (d : ℚ)|
          ≤ (2 : ℚ) ^ e / 2
        ∧ (|((Float64.roundHalfEven num den : Nat) : ℚ) * (2 : ℚ) ^ e - (n : ℚ) / (d : ℚ)|
            = (2 : ℚ) ^ e / 2 → Float64.roundHalfEven num den % 2 = 0) := by
    intro num den hden hY
    obtain ⟨hA, hT⟩ := Float64.roundHalfEven_spec num den hden
    have hrew : ((Float64.roundHalfEven num den : Nat) : ℚ) * (2 : ℚ) ^ e - (n : ℚ) / (d : ℚ)
        = (((Float64.roundHalfEven num den : Nat) : ℚ) - (num : ℚ) / (den : ℚ))
            * (2 : ℚ) ^ e := by
      rw [← hY]; ring
    rw [hrew, abs_mul, abs_of_pos hE]
    constructor
    · calc |((Float64.roundHalfEven num den : Nat) : ℚ) - (num : ℚ) / (den : ℚ)| * (2 : ℚ) ^ e
          ≤ 1 / 2 * (2 : ℚ) ^ e := mul_le_mul_of_nonneg_right hA hE.le
        _ = (2 : ℚ) ^ e / 2 := by ring
    · intro htie
      apply hT
      have : |((Float64.roundHalfEven num den : Nat) : ℚ) - (num : ℚ) / (den : ℚ)| * (2 : ℚ) ^ e
          = 1 / 2 * (2 : ℚ) ^ e := by rw [htie]; ring
      exact mul_right_cancel₀ hE.ne' this
  unfold Float64.scaledSignificand
  by_cases he : 0 ≤ e
  · rw [if_pos he]
    obtain ⟨k, rfl⟩ := Int.eq_ofNat_of_zero_le he
    rw [Int.toNat_ofNat]
    apply key n (d * 2 ^ k) (by positivity)
    rw [two_zpow_natCast]
    have h2 : ((2 ^ k : Nat) : ℚ) ≠ 0 := by positivity
    push_cast
    push_cast at h2
    field_simp
    ring
  · rw [if_neg he]
    have hk : 0 ≤ -e := by omega
    obtain ⟨k, hk'⟩ := Int.eq_ofNat_of_zero_le hk
    have he' : e = -(k : Int) := by omega
    subst he'
    rw [neg_neg, Int.toNat_ofNat]
    apply key (n * 2 ^ k) d hd
    have hone := two_zpow_neg_mul k
    calc ((n * 2 ^ k : Nat) : ℚ) / (d : ℚ) * (2 : ℚ) ^ (-(k : Int))
        = (n : ℚ) / (d : ℚ) * ((2 : ℚ) ^ (-(k : Int)) * ((2 ^ k : Nat) : ℚ)) := by
          push_cast; ring
      _ = (n : ℚ) / (d : ℚ) := by rw [hone, mul_one]

theorem natCast_le_of_lt_add_half (q b : Nat) (h : (q : ℚ) < (b : ℚ) + 1 / 2) : q ≤ b := by
  by_contra hc
  have h1 : b + 1 ≤ q := by omega
  have h2 : ((b + 1 : Nat) : ℚ) ≤ (q : ℚ) := by exact_mod_cast h1
  push_cast at h2
  linarith

theorem natCast_ge_of_sub_half_le (q b : Nat) (h : (b : ℚ) - 1 / 2 ≤ (q : ℚ)) : b ≤ q := by
  by_contra hc
  have h1 : q + 1 ≤ b := by omega
  have h2 : ((q + 1 : Nat) : ℚ) ≤ (b : ℚ) := by exact_mod_cast h1
  push_cast at h2
  linarith

theorem Float64.roundRatio_spec (neg : Bool) (n d : Nat) (hn : 0 < n) (hd : 0 < d) :
    (Float64.roundRatio neg n d = Float64.inf neg
        ∧ (2 : ℚ) ^ (1024 : Nat) - (2 : ℚ) ^ (970 : Nat) ≤ (n : ℚ) / (d : ℚ))
      ∨ ∃ (m : Nat) (e : Int), Float64.roundRatio neg n d = Float64.finite neg m e
          ∧ m < 2 ^ 53 ∧ -1074 ≤ e ∧ e ≤ 971 ∧ (2 ^ 52 ≤ m ∨ e = -1074)
          ∧ |(m : ℚ) * (2 : ℚ) ^ e - (n : ℚ) / (d : ℚ)| ≤ (2 : ℚ) ^ e / 2
          ∧ (|(m : ℚ) * (2 : ℚ) ^ e - (n : ℚ) / (d : ℚ)| = (2 : ℚ) ^ e / 2 → m % 2 = 0) := by
  obtain ⟨hl1, hl2⟩ := Float64.ilog2Ratio_spec n d hn hd
  have hdq : (0 : ℚ) < (d : ℚ) := by exact_mod_cast hd
  unfold Float64.roundRatio Float64.roundExponent
  generalize Float64.ilog2Ratio n d = l at hl1 hl2 ⊢
  have hx1 : (2 : ℚ) ^ l ≤ (n : ℚ) / (d : ℚ) := (le_div_iff₀ hdq).2 hl1
  have hx2 : (n : ℚ) / (d : ℚ) < (2 : ℚ) ^ (l + 1) := (div_lt_iff₀ hdq).2 hl2
  have he1 : l - 52 ≤ max (l - 52) (-1074) := le_max_left _ _
  have he2 : (-1074 : Int) ≤ max (l - 52) (-1074) := le_max_right _ _
  have he3 : max (l - 52) (-1074) = l - 52 ∨ max (l - 52) (-1074) = -1074 := max_choice _ _
  obtain ⟨hA, hT⟩ := Float64.scaledSignificand_spec n d (max (l - 52) (-1074)) hd
  generalize max (l - 52) (-1074) = e at he1 he2 he3 hA hT ⊢
  generalize Float64.scaledSignificand n d e = q at hA hT ⊢
  generalize (n : ℚ) / (d : ℚ) = x at hx1 hx2 hA hT ⊢
  have hE := two_zpow_pos e
  have h2 : (2 : ℚ) ≠ 0 := by norm_num
  have h12 : (1 : ℚ) ≤ 2 := by norm_num
  obtain ⟨hAl, hAu⟩ := abs_le.1 hA
  -- the significand has at most 53 bits, or is 2^53
  have hup : (2 : ℚ) ^ (l + 1) ≤ (2 : ℚ) ^ e * (2 : ℚ) ^ (53 : Nat) := by
    have : (2 : ℚ) ^ e * (2 : ℚ) ^ (53 : Nat) = (2 : ℚ) ^ (e + 53) := by
      rw [zpow_add₀ h2, ← zpow_natCast]; rfl
    rw [this]
    exact zpow_le_zpow_right₀ h12 (by omega)
  have hq_le : q ≤ 2 ^ 53 := by
    apply natCast_le_of_lt_add_half
    push_cast
    have h3 : (q : ℚ) * (2 : ℚ) ^ e < ((2 : ℚ) ^ (53 : Nat) + 1 / 2) * (2 : ℚ) ^ e := by
      have : ((2 : ℚ) ^ (53 : Nat) + 1 / 2) * (2 : ℚ) ^ e
          = (2 : ℚ) ^ e * (2 : ℚ) ^ (53 : Nat) + (2 : ℚ) ^ e / 2 := by ring
      rw [this]; linarith
    exact lt_of_mul_lt_mul_right h3 hE.le
  have hq_ge : e = l - 52 → 2 ^ 52 ≤ q := by
    intro hel
    apply natCast_ge_of_sub_half_le
    push_cast
    have hlow : (2 : ℚ) ^ e * (2 : ℚ) ^ (52 : Nat) = (2 : ℚ) ^ l := by
      rw [← zpow_natCast, ← zpow_add₀ h2]
      congr 1
      rw [hel]; push_cast; ring
    have h3 : ((2 : ℚ) ^ (52 : Nat) - 1 / 2) * (2 : ℚ) ^ e ≤ (q : ℚ) * (2 : ℚ) ^ e := by
      have : ((2 : ℚ) ^ (52 : Nat) - 1 / 2) * (2 : ℚ) ^ e
          = (2 : ℚ) ^ e * (2 : ℚ) ^ (52 : Nat) - (2 : ℚ) ^ e / 2 := by ring
      rw [this, hlow]; linarith
    exact le_of_mul_le_mul_right h3 hE
  unfold Float64.pack
  by_cases hq : q = 2 ^ 53
  · rw [if_pos hq]
    by_cases hov : 971 < e + 1
    · rw [if_pos hov]
      refine Or.inl ⟨rfl, ?_⟩
      have hEbig : (2 : ℚ) ^ (971 : Nat) ≤ (2 : ℚ) ^ e := by
        rw [← zpow_natCast]
        exact zpow_le_zpow_right₀ h12 (by push_cast; omega)
      have hqc : (q : ℚ) = (2 : ℚ) ^ (53 : Nat) := by rw [hq]; push_cast; rfl
      rw [hqc] at hAu
      have hfac : (2 : ℚ) ^ (1024 : Nat) - (2 : ℚ) ^ (970 : Nat)
          = (2 : ℚ) ^ (971 : Nat) * ((2 : ℚ) ^ (53 : Nat) - 1 / 2) := by norm_num
      rw [hfac]
      have hpos : (0 : ℚ) ≤ (2 : ℚ) ^ (53 : Nat) - 1 / 2 := by norm_num
      have := mul_le_mul_of_nonneg_right hEbig hpos
      linarith
    · rw [if_neg hov]
      refine Or.inr ⟨2 ^ 52, e + 1, rfl, by norm_num, by omega, by omega, Or.inl le_rfl, ?_, ?_⟩
      · have hval : ((2 ^ 52 : Nat) : ℚ) * (2 : ℚ) ^ (e + 1) = (q : ℚ) * (2 : ℚ) ^ e := by
          rw [hq, zpow_add_one₀ h2]; push_cast; ring
        rw [hval]
        have hhalf : (2 : ℚ) ^ e / 2 ≤ (2 : ℚ) ^ (e + 1) / 2 := by
          rw [zpow_add_one₀ h2]; linarith
        exact le_trans hA hhalf
      · intro _
        norm_num
  · rw [if_neg hq]
    have hqlt : q < 2 ^ 53 := lt_of_le_of_ne hq_le hq
    by_cases hov : 971 < e
    · rw [if_pos hov]
      refine Or.inl ⟨rfl, ?_⟩
      have hel : e = l - 52 := by rcases he3 with h | h <;> omega
      have hbig : (2 : ℚ) ^ (1024 : Nat) ≤ (2 : ℚ) ^ l := by
        rw [← zpow_natCast]
        exact zpow_le_zpow_right₀ h12 (by push_cast; omega)
      have hpos : (0 : ℚ) ≤ (2 : ℚ) ^ (970 : Nat) := by positivity
      linarith
    · rw [if_neg hov]
      refine Or.inr ⟨q, e, rfl, hqlt, he2, by omega, ?_, hA, hT⟩
      rcases he3 with h | h
      · exact Or.inl (hq_ge h)
      · exact Or.inr h

theorem Float64.toRat_finite_sub (s t : Bool) (m m1 m2 : Nat) (e e1 e2 : Int) :
    |(Float64.finite (xor s t) m e).toRat
        - (Float64.finite s m1 e1).toRat * (Float64.finite t m2 e2).toRat|
      = |(m : ℚ) * (2 : ℚ) ^ e - (m1 : ℚ) * (m2 : ℚ) * (2 : ℚ) ^ (e1 + e2)| := by
  have h2 : (2 : ℚ) ≠ 0 := by norm_num
  unfold Float64.toRat
  rw [zpow_add₀ h2]
  cases s <;> cases t <;> simp only [Bool.xor_false, Bool.xor_true, Bool.not_false,
    Bool.not_true, Bool.false_eq_true, if_false, if_true]
  · congr 1; ring
  · rw [← abs_neg]; congr 1; ring
  · rw [← abs_neg]; congr 1; ring
  · congr 1; ring

theorem Float64.abs_toRat_mul (s t : Bool) (m1 m2 : Nat) (e1 e2 : Int) :
    |(Float64.finite s m1 e1).toRat * (Float64.finite t m2 e2).toRat|
      = (m1 : ℚ) * (m2 : ℚ) * (2 : ℚ) ^ (e1 + e2) := by
  have h2 : (2 : ℚ) ≠ 0 := by norm_num
  have hnn : (0 : ℚ) ≤ (m1 : ℚ) * (m2 : ℚ) * (2 : ℚ) ^ (e1 + e2) := by positivity
  unfold Float64.toRat
  rw [zpow_add₀ h2] at hnn ⊢
  cases s <;> cases t <;> simp only [Bool.false_eq_true, if_false, if_true]
  · rw [← abs_of_nonneg hnn]; congr 1; ring
  · rw [← abs_of_nonneg hnn, ← abs_neg]; congr 1; ring
  · rw [← abs_of_nonneg hnn, ← abs_neg]; congr 1; ring
  · rw [← abs_of_nonneg hnn]; congr 1; ring

/-- The product of two finite values that are not zero is the exact product
rounded to 53 bits, to nearest, ties to the even significand; it overflows to
an infinity from `2^1024 - 2^970` on. -/
theorem Float64.mul_nearest (s t : Bool) (m1 m2 : Nat) (e1 e2 : Int) (h : m1 * m2 ≠ 0) :
    ((Float64.finite s m1 e1).mul (Float64.finite t m2 e2) = Float64.inf (xor s t)
        ∧ (2 : ℚ) ^ (1024 : Nat) - (2 : ℚ) ^ (970 : Nat)
            ≤ |(Float64.finite s m1 e1).toRat * (Float64.finite t m2 e2).toRat|)
      ∨ ∃ (m : Nat) (e : Int),
          (Float64.finite s m1 e1).mul (Float64.finite t m2 e2) = Float64.finite (xor s t) m e
          ∧ m < 2 ^ 53 ∧ -1074 ≤ e ∧ e ≤ 971 ∧ (2 ^ 52 ≤ m ∨ e = -1074)
          ∧ |(Float64.finite (xor s t) m e).toRat
              - (Float64.finite s m1 e1).toRat * (Float64.finite t m2 e2).toRat|
            ≤ (2 : ℚ) ^ e / 2
          ∧ (|(Float64.finite (xor s t) m e).toRat
              - (Float64.finite s m1 e1).toRat * (Float64.finite t m2 e2).toRat|
            = (2 : ℚ) ^ e / 2 → m % 2 = 0) := by
  have key : ∀ n d : Nat, 0 < n → 0 < d →
      (n : ℚ) / (d : ℚ) = (m1 : ℚ) * (m2 : ℚ) * (2 : ℚ) ^ (e1 + e2) →
      (Float64.finite s m1 e1).mul (Float64.finite t m2 e2)
        = Float64.roundRatio (xor s t) n d →
      ((Float64.finite s m1 e1).mul (Float64.finite t m2 e2) = Float64.inf (xor s t)
        ∧ (2 : ℚ) ^ (1024 : Nat) - (2 : ℚ) ^ (970 : Nat)
            ≤ |(Float64.finite s m1 e1).toRat * (Float64.finite t m2 e2).toRat|)
      ∨ ∃ (m : Nat) (e : Int),
          (Float64.finite s m1 e1).mul (Float64.finite t m2 e2) = Float64.finite (xor s t) m e
          ∧ m < 2 ^ 53 ∧ -1074 ≤ e ∧ e ≤ 971 ∧ (2 ^ 52 ≤ m ∨ e = -1074)
          ∧ |(Float64.finite (xor s t) m e).toRat
              - (Float64.finite s m1 e1).toRat * (Float64.finite t m2 e2).toRat|
            ≤ (2 : ℚ) ^ e / 2
          ∧ (|(Float64.finite (xor s t) m e).toRat
              - (Float64.finite s m1 e1).toRat * (Float64.finite t m2 e2).toRat|
            = (2 : ℚ) ^ e / 2 → m % 2 = 0) := by
    intro n d hn hd hx hmul
    rw [hmul, Float64.abs_toRat_mul]
    rcases Float64.roundRatio_spec (xor s t) n d hn hd with ⟨hinf, hbig⟩ | ⟨m, e, hfin, hm, he1, he2, hnorm, herr, htie⟩
    · exact Or.inl ⟨hinf, hx ▸ hbig⟩
    · refine Or.inr ⟨m, e, hfin, hm, he1, he2, hnorm, ?_, ?_⟩
      · rw [Float64.toRat_finite_sub, ← hx]; exact herr
      · rw [Float64.toRat_finite_sub, ← hx]; exact htie
  have hpos : 0 < m1 * m2 := Nat.pos_of_ne_zero h
  by_cases he : 0 ≤ e1 + e2
  · obtain ⟨k, hk⟩ := Int.eq_ofNat_of_zero_le he
    apply key (m1 * m2 * 2 ^ k) 1 (by positivity) Nat.one_pos
    · rw [hk, two_zpow_natCast]; push_cast; ring
    · simp only [Float64.mul, h, if_false, hk, Int.natCast_nonneg, if_true, Int.toNat_ofNat]
  · have hk0 : 0 ≤ -(e1 + e2) := by omega
    obtain ⟨k, hk⟩ := Int.eq_ofNat_of_zero_le hk0
    have hk' : e1 + e2 = -(k : Int) := by omega
    apply key (m1 * m2) (2 ^ k) hpos (by positivity)
    · rw [hk', zpow_neg, two_zpow_natCast]; push_cast; ring
    · simp only [Float64.mul, h, if_false, he, hk, Int.toNat_ofNat]

/-- A decimal that is not zero is read as the nearest `float64`, ties to the
even significand. -/
theorem Float64.ofDecimal_nearest (neg : Bool) (n scale : Nat) (hn : 0 < n) :
    (Float64.ofDecimal neg n scale = Float64.inf neg
        ∧ (2 : ℚ) ^ (1024 : Nat) - (2 : ℚ) ^ (970 : Nat) ≤ (n : ℚ) / (10 : ℚ) ^ scale)
      ∨ ∃ (m : Nat) (e : Int), Float64.ofDecimal neg n scale = Float64.finite neg m e
          ∧ m < 2 ^ 53 ∧ -1074 ≤ e ∧ e ≤ 971 ∧ (2 ^ 52 ≤ m ∨ e = -1074)
          ∧ |(m : ℚ) * (2 : ℚ) ^ e - (n : ℚ) / (10 : ℚ) ^ scale| ≤ (2 : ℚ) ^ e / 2
          ∧ (|(m : ℚ) * (2 : ℚ) ^ e - (n : ℚ) / (10 : ℚ) ^ scale| = (2 : ℚ) ^ e / 2 →
              m % 2 = 0) := by
  have hne : n ≠ 0 := Nat.pos_iff_ne_zero.1 hn
  have hspec := Float64.roundRatio_spec neg n (10 ^ scale) hn (by positivity)
  have hcast : ((10 ^ scale : Nat) : ℚ) = (10 : ℚ) ^ scale := by push_cast; rfl
  rw [hcast] at hspec
  unfold Float64.ofDecimal
  rw [if_neg hne]
  exact hspec

/-! ## Lemmas: strings -/

theorem replaceChars_cons_ne (old c : Char) (cs : List Char) (hc : c ≠ old) :
    replaceChars old [] 1 (c :: cs) = c :: replaceChars old [] 1 cs := by
  simp [replaceChars, hc]

theorem replaceChars_cons_self (old : Char) (cs : List Char) :
    replaceChars old [] 1 (old :: cs) = cs := by
  simp [replaceChars]

theorem replaceChars_of_not_mem (old : Char) (s : List Char) (h : old ∉ s) :
    replaceChars old [] 1 s = s := by
  induction s with
  | nil => rfl
  | cons c cs ih =>
    have hc : c ≠ old := fun hc => h (by simp [hc])
    have hcs : old ∉ cs := fun hm => h (List.mem_cons_of_mem _ hm)
    rw [replaceChars_cons_ne old c cs hc, ih hcs]

theorem replaceChars_split (old : Char) (pre post : List Char) (h : old ∉ pre) :
    replaceChars old [] 1 (pre ++ old :: post) = pre ++ post := by
  induction pre with
  | nil => exact replaceChars_cons_self old post
  | cons c cs ih =>
    have hc : c ≠ old := fun hc => h (by simp [hc])
    have hcs : old ∉ cs := fun hm => h (List.mem_cons_of_mem _ hm)
    rw [List.cons_append, replaceChars_cons_ne old c _ hc, ih hcs, List.cons_append]

theorem replaceChars_count (old : Char) (s : List Char) :
    (replaceChars old [] 1 s).count old = s.count old - 1 := by
  induction s with
  | nil => rfl
  | cons c cs ih =>
    by_cases hc : c = old
    · subst hc
      rw [replaceChars_cons_self]
      simp
    · have hne : (c == old) = false := by simpa using hc
      rw [replaceChars_cons_ne old c cs hc]
      simp only [List.count_cons, hne, ih]
      simp

theorem topic_ne (station a b : String) (hab : a ≠ b) :
    "mqweather/" ++ station ++ a ≠ "mqweather/" ++ station ++ b := by
  intro h
  apply hab
  have hd := congrArg String.data h
  simp only [String.data_append, List.append_cancel_left_eq] at hd
  exact String.ext hd

/-! ## Lemmas: traces -/

theorem publishAttempts_append (a b : List Event) :
    publishAttempts (a ++ b) = publishAttempts a ++ publishAttempts b := by
  induction a with
  | nil => rfl
  | cons ev rest ih => cases ev <;> simp [publishAttempts, ih]

theorem publishAttempts_publishStep (topic payload : String) (res : PublishResult) :
    publishAttempts (publishStep topic payload res) = [(topic, payload)] := by
  obtain ⟨wait, error⟩ := res
  cases wait <;> cases error <;> rfl

theorem Phase.run_append (ph : Phase) (a b : List Event) :
    ph.run (a ++ b) = (ph.run a).bind (fun next => next.run b) := by
  induction a generalizing ph with
  | nil => rfl
  | cons ev rest ih =>
    simp only [List.cons_append, Phase.run]
    cases ph.step ev with
    | none => rfl
    | some next => exact ih next

theorem Phase.run_publishStep (topic payload : String) (res : PublishResult) :
    Phase.inCycle.run (publishStep topic payload res) = some Phase.inCycle := by
  obtain ⟨wait, error⟩ := res
  cases wait <;> cases error <;> rfl

/-! ## Lemmas: one iteration -/

section Cycle

variable {Response : Type} (rt : Runtime) (flags : MainFlags) (w : Wunderground)
  (hasError : Option Response → Outcome (Option Error)) (env : CycleEnv Response)

theorem cycle_of_reading (c : Conditions)
    (h : getConditions hasError env.fetch = .ret (some c, none)) :
    watchWeatherCycle rt flags w hasError env =
      (Event.fetch (conditionsUrl w flags.Station) ::
        (publishStep ("mqweather/" ++ flags.Station ++ "/temperature")
            (scaledPayload rt c.TempC) (env.broker 0)
          ++ publishStep ("mqweather/" ++ flags.Station ++ "/dewpoint")
            (scaledPayload rt c.DewpointC) (env.broker 1)
          ++ publishStep ("mqweather/" ++ flags.Station ++ "/wind")
            (scaledPayload rt c.WindKPH) (env.broker 2)
          ++ publishStep ("mqweather/" ++ flags.Station ++ "/pressure")
            c.PressureMB (env.broker 3)
          ++ publishStep ("mqweather/" ++ flags.Station ++ "/humidity")
            (stripPercent c.RelativeHumidity) (env.broker 4)
          ++ [Event.sleep (sleepDuration flags)]), none) := by
  simp only [watchWeatherCycle, h]

theorem cycle_of_error (c : Option Conditions) (err : Error)
    (h : getConditions hasError env.fetch = .ret (c, some err)) :
    watchWeatherCycle rt flags w hasError env =
      ([Event.fetch (conditionsUrl w flags.Station),
        Event.print ("Could not read weather " ++ err ++ "\n"),
        Event.sleep (sleepDuration flags)], none) := by
  simp only [watchWeatherCycle, h]

theorem cycle_of_panic (p : Panic)
    (h : getConditions hasError env.fetch = .panic p) :
    watchWeatherCycle rt flags w hasError env =
      ([Event.fetch (conditionsUrl w flags.Station)], some p) := by
  simp only [watchWeatherCycle, h]

theorem cycle_of_nil
    (h : getConditions hasError env.fetch = .ret (none, none)) :
    watchWeatherCycle rt flags w hasError env =
      ([Event.fetch (conditionsUrl w flags.Station)], some Panic.nilDereference) := by
  simp only [watchWeatherCycle, h]

theorem cycle_attempts (c : Conditions)
    (h : getConditions hasError env.fetch = .ret (some c, none)) :
    publishAttempts (watchWeatherCycle rt flags w hasError env).1 =
      [ ("mqweather/" ++ flags.Station ++ "/temperature", scaledPayload rt c.TempC),
        ("mqweather/" ++ flags.Station ++ "/dewpoint", scaledPayload rt c.DewpointC),
        ("mqweather/" ++ flags.Station ++ "/wind", scaledPayload rt c.WindKPH),
        ("mqweather/" ++ flags.Station ++ "/pressure", c.PressureMB),
        ("mqweather/" ++ flags.Station ++ "/humidity", stripPercent c.RelativeHumidity) ] := by
  rw [cycle_of_reading rt flags w hasError env c h]
  show publishAttempts (_ ++ [Event.sleep (sleepDuration flags)]) = _
  simp only [publishAttempts_append, publishAttempts_publishStep]
  rfl

end Cycle

/-! ## The publish attempts of an iteration -/

/-- C1: after a fetch that returns a reading without error, one iteration of
`watchWeather` makes exactly five publish attempts, in order on the topics
`mqweather/S/temperature`, `dewpoint`, `wind`, `pressure` and `humidity`, which
are pairwise different, so each topic is published exactly once. -/
theorem watchWeather_five_publishes {Response : Type} (rt : Runtime) (flags : MainFlags)
    (w : Wunderground) (hasError : Option Response → Outcome (Option Error))
    (env : CycleEnv Response) (c : Conditions)
    (h : getConditions hasError env.fetch = .ret (some c, none)) :
    publishAttempts (watchWeatherCycle rt flags w hasError env).1 =
        [ ("mqweather/" ++ flags.Station ++ "/temperature", scaledPayload rt c.TempC),
          ("mqweather/" ++ flags.Station ++ "/dewpoint", scaledPayload rt c.DewpointC),
          ("mqweather/" ++ flags.Station ++ "/wind", scaledPayload rt c.WindKPH),
          ("mqweather/" ++ flags.Station ++ "/pressure", c.PressureMB),
          ("mqweather/" ++ flags.Station ++ "/humidity", stripPercent c.RelativeHumidity) ]
      ∧ (publishAttempts (watchWeatherCycle rt flags w hasError env).1).length = 5
      ∧ ((publishAttempts (watchWeatherCycle rt flags w hasError env).1).map Prod.fst).Nodup := by
  have hA := cycle_attempts rt flags w hasError env c h
  refine ⟨hA, by rw [hA]; rfl, ?_⟩
  rw [hA]
  have hmap : List.map Prod.fst
      [ ("mqweather/" ++ flags.Station ++ "/temperature", scaledPayload rt c.TempC),
        ("mqweather/" ++ flags.Station ++ "/dewpoint", scaledPayload rt c.DewpointC),
        ("mqweather/" ++ flags.Station ++ "/wind", scaledPayload rt c.WindKPH),
        ("mqweather/" ++ flags.Station ++ "/pressure", c.PressureMB),
        ("mqweather/" ++ flags.Station ++ "/humidity", stripPercent c.RelativeHumidity) ]
      = List.map (fun metric => "mqweather/" ++ flags.Station ++ metric)
          ["/temperature", "/dewpoint", "/wind", "/pressure", "/humidity"] := rfl
  rw [hmap]
  refine List.Nodup.map ?_ (by decide)
  intro a b hab
  by_contra hne
  exact topic_ne flags.Station a b hne hab

theorem watchWeather_five_publishes_witness :
    getConditions noError sampleEnv.fetch = .ret (some sampleReading, none)
      ∧ publishAttempts (watchWeatherCycle amd64 sampleFlags sampleApi noError sampleEnv).1 =
        [ ("mqweather/KXATEST1/temperature", "20123"),
          ("mqweather/KXATEST1/dewpoint", "15000"),
          ("mqweather/KXATEST1/wind", "10999"),
          ("mqweather/KXATEST1/pressure", "1013.2"),
          ("mqweather/KXATEST1/humidity", "65") ] :=
  ⟨rfl, (watchWeather_five_publishes amd64 sampleFlags sampleApi noError sampleEnv
    sampleReading rfl).1.trans (by decide)⟩

/-- C3: after a fetch that returns a reading, whatever the broker answers to
each of the five publish calls, the publish attempts of the iteration, topics
and payloads, are those made when all five succeed; there are five of them and
the iteration ends without a panic. -/
theorem publish_failure_keeps_attempts {Response : Type} (rt : Runtime) (flags : MainFlags)
    (w : Wunderground) (hasError : Option Response → Outcome (Option Error))
    (fetch : FetchResult Response) (broker : Fin 5 → PublishResult) (c : Conditions)
    (h : getConditions hasError fetch = .ret (some c, none)) :
    publishAttempts (watchWeatherCycle rt flags w hasError ⟨fetch, broker⟩).1
        = publishAttempts (watchWeatherCycle rt flags w hasError ⟨fetch, brokerOk⟩).1
      ∧ (publishAttempts (watchWeatherCycle rt flags w hasError ⟨fetch, broker⟩).1).length = 5
      ∧ (watchWeatherCycle rt flags w hasError ⟨fetch, broker⟩).2 = none := by
  have h1 := cycle_attempts rt flags w hasError ⟨fetch, broker⟩ c h
  have h2 := cycle_attempts rt flags w hasError ⟨fetch, brokerOk⟩ c h
  refine ⟨h1.trans h2.symm, by rw [h1]; rfl, ?_⟩
  rw [cycle_of_reading rt flags w hasError ⟨fetch, broker⟩ c h]

theorem publish_failure_keeps_attempts_witness :
    getConditions noError windRejectedEnv.fetch = .ret (some sampleReading, none)
      ∧ publishAttempts
          (watchWeatherCycle amd64 sampleFlags sampleApi noError windRejectedEnv).1
        = publishAttempts (watchWeatherCycle amd64 sampleFlags sampleApi noError sampleEnv).1 :=
  ⟨rfl, (publish_failure_keeps_attempts amd64 sampleFlags sampleApi noError
    windRejectedEnv.fetch brokerRejectsWind sampleReading rfl).1⟩

/-- C8: after a fetch that returns a reading, the fourth publish attempt is on
`mqweather/S/pressure` and its payload is the string `PressureMB` itself. -/
theorem pressure_payload_unchanged {Response : Type} (rt : Runtime) (flags : MainFlags)
    (w : Wunderground) (hasError : Option Response → Outcome (Option Error))
    (env : CycleEnv Response) (c : Conditions)
    (h : getConditions hasError env.fetch = .ret (some c, none)) :
    (publishAttempts (watchWeatherCycle rt flags w hasError env).1)[3]?
      = some ("mqweather/" ++ flags.Station ++ "/pressure", c.PressureMB) := by
  rw [cycle_attempts rt flags w hasError env c h]
  rfl

theorem pressure_payload_unchanged_witness :
    getConditions noError sentinelEnv.fetch = .ret (some sentinelReading, none)
      ∧ (publishAttempts (watchWeatherCycle amd64 sampleFlags sampleApi noError sentinelEnv).1)[3]?
        = some ("mqweather/KXATEST1/pressure", "-9999.00") :=
  ⟨rfl, pressure_payload_unchanged amd64 sampleFlags sampleApi noError sentinelEnv
    sentinelReading rfl⟩

/-- C6: after a fetch that returns a reading, the fifth publish attempt is on
`mqweather/S/humidity`; when `RelativeHumidity` contains a percent sign the
payload is that string without its first percent sign, everything else kept,
and when it contains none the payload is the string unchanged. -/
theorem humidity_payload_strips_first_percent {Response : Type} (rt : Runtime)
    (flags : MainFlags) (w : Wunderground)
    (hasError : Option Response → Outcome (Option Error))
    (env : CycleEnv Response) (c : Conditions)
    (h : getConditions hasError env.fetch = .ret (some c, none)) :
    ∃ payload : String,
      (publishAttempts (watchWeatherCycle rt flags w hasError env).1)[4]?
          = some ("mqweather/" ++ flags.Station ++ "/humidity", payload)
        ∧ ('%' ∈ c.RelativeHumidity.data →
            ∃ pre post, c.RelativeHumidity.data = pre ++ '%' :: post ∧ '%' ∉ pre
              ∧ payload.data = pre ++ post)
        ∧ ('%' ∉ c.RelativeHumidity.data → payload = c.RelativeHumidity) := by
  refine ⟨stripPercent c.RelativeHumidity, ?_, ?_, ?_⟩
  · rw [cycle_attempts rt flags w hasError env c h]
    rfl
  · intro hmem
    obtain ⟨pre, post, hsplit, hpre⟩ := List.eq_append_cons_of_mem hmem
    refine ⟨pre, post, hsplit, hpre, ?_⟩
    show replaceChars '%' [] 1 c.RelativeHumidity.data = pre ++ post
    rw [hsplit]
    exact replaceChars_split '%' pre post hpre
  · intro hnot
    apply String.ext
    exact replaceChars_of_not_mem '%' _ hnot

theorem humidity_payload_strips_first_percent_witness :
    getConditions noError sentinelEnv.fetch = .ret (some sentinelReading, none)
      ∧ ∃ payload : String,
        (publishAttempts (watchWeatherCycle amd64 sampleFlags sampleApi noError sentinelEnv).1)[4]?
            = some ("mqweather/" ++ sampleFlags.Station ++ "/humidity", payload)
          ∧ ('%' ∈ sentinelReading.RelativeHumidity.data →
              ∃ pre post, sentinelReading.RelativeHumidity.data = pre ++ '%' :: post
                ∧ '%' ∉ pre ∧ payload.data = pre ++ post)
          ∧ ('%' ∉ sentinelReading.RelativeHumidity.data →
              payload = sentinelReading.RelativeHumidity) :=
  ⟨rfl, humidity_payload_strips_first_percent amd64 sampleFlags sampleApi noError sentinelEnv
    sentinelReading rfl⟩

/-- C7, as stated, fails: the humidity string `100%%` is published as `100%`,
which still contains a percent sign. -/
theorem humidity_payload_keeps_second_percent :
    (publishAttempts (watchWeatherCycle amd64 sampleFlags sampleApi noError doublePercentEnv).1)[4]?
        = some ("mqweather/KXATEST1/humidity", "100%")
      ∧ '%' ∈ ("100%" : String).data := by
  decide

/-- C7, amended: after a fetch that returns a reading, the humidity payload has
one percent sign fewer than `RelativeHumidity` (none fewer when there is none);
it contains no percent sign whenever `RelativeHumidity` contains at most one. -/
theorem humidity_payload_percent_count {Response : Type} (rt : Runtime)
    (flags : MainFlags) (w : Wunderground)
    (hasError : Option Response → Outcome (Option Error))
    (env : CycleEnv Response) (c : Conditions)
    (h : getConditions hasError env.fetch = .ret (some c, none)) :
    ∃ payload : String,
      (publishAttempts (watchWeatherCycle rt flags w hasError env).1)[4]?
          = some ("mqweather/" ++ flags.Station ++ "/humidity", payload)
        ∧ payload.data.count '%' = c.RelativeHumidity.data.count '%' - 1
        ∧ (c.RelativeHumidity.data.count '%' ≤ 1 → '%' ∉ payload.data) := by
  refine ⟨stripPercent c.RelativeHumidity, ?_, ?_, ?_⟩
  · rw [cycle_attempts rt flags w hasError env c h]
    rfl
  · exact replaceChars_count '%' _
  · intro hle
    apply List.count_eq_zero.1
    show (replaceChars '%' [] 1 c.RelativeHumidity.data).count '%' = 0
    rw [replaceChars_count]
    omega

theorem humidity_payload_percent_count_witness :
    getConditions noError sampleEnv.fetch = .ret (some sampleReading, none)
      ∧ ∃ payload : String,
        (publishAttempts (watchWeatherCycle amd64 sampleFlags sampleApi noError sampleEnv).1)[4]?
            = some ("mqweather/" ++ sampleFlags.Station ++ "/humidity", payload)
          ∧ payload.data.count '%' = sampleReading.RelativeHumidity.data.count '%' - 1
          ∧ (sampleReading.RelativeHumidity.data.count '%' ≤ 1 → '%' ∉ payload.data) :=
  ⟨rfl, humidity_payload_percent_count amd64 sampleFlags sampleApi noError sampleEnv
    sampleReading rfl⟩

/-! ## The scaled payloads -/

theorem fits_of_truncate (rt : Runtime) (x : Float64) (t : Int)
    (ht : x.truncate = some t) (hf : fitsInt rt t) :
    x.isFinite = true ∧ fitsInt rt (truncTowardZero x.toRat) := by
  cases x with
  | finite neg m e =>
    rw [Float64.truncate_finite] at ht
    refine ⟨rfl, ?_⟩
    rw [Option.some.inj ht]
    exact hf
  | inf neg => simp [Float64.truncate] at ht
  | nan => simp [Float64.truncate] at ht

/-- C2: after a fetch that returns a reading whose three products
`TempC*1000`, `DewpointC*1000` and `WindKPH*1000`, computed in `float64`, are
finite with an integer part that fits `int`, the first three publish attempts
carry the decimal string of that product truncated toward zero: its floor when
it is not negative, its ceiling when it is negative. -/
theorem scaled_payloads_truncate {Response : Type} (rt : Runtime) (flags : MainFlags)
    (w : Wunderground) (hasError : Option Response → Outcome (Option Error))
    (env : CycleEnv Response) (c : Conditions)
    (h : getConditions hasError env.fetch = .ret (some c, none))
    (hT : (c.TempC.mul thousand).isFinite = true
      ∧ fitsInt rt (truncTowardZero (c.TempC.mul thousand).toRat))
    (hD : (c.DewpointC.mul thousand).isFinite = true
      ∧ fitsInt rt (truncTowardZero (c.DewpointC.mul thousand).toRat))
    (hW : (c.WindKPH.mul thousand).isFinite = true
      ∧ fitsInt rt (truncTowardZero (c.WindKPH.mul thousand).toRat)) :
    (publishAttempts (watchWeatherCycle rt flags w hasError env).1).take 3 =
      [ ("mqweather/" ++ flags.Station ++ "/temperature",
          toString (truncTowardZero (c.TempC.mul thousand).toRat)),
        ("mqweather/" ++ flags.Station ++ "/dewpoint",
          toString (truncTowardZero (c.DewpointC.mul thousand).toRat)),
        ("mqweather/" ++ flags.Station ++ "/wind",
          toString (truncTowardZero (c.WindKPH.mul thousand).toRat)) ] := by
  rw [cycle_attempts rt flags w hasError env c h,
    scaledPayload_of_fits rt c.TempC hT.1 hT.2,
    scaledPayload_of_fits rt c.DewpointC hD.1 hD.2,
    scaledPayload_of_fits rt c.WindKPH hW.1 hW.2]
  rfl

theorem scaled_payloads_truncate_witness :
    getConditions noError sentinelEnv.fetch = .ret (some sentinelReading, none)
      ∧ (publishAttempts (watchWeatherCycle amd64 sampleFlags sampleApi noError sentinelEnv).1).take 3 =
        [ ("mqweather/" ++ sampleFlags.Station ++ "/temperature",
            toString (truncTowardZero (sentinelReading.TempC.mul thousand).toRat)),
          ("mqweather/" ++ sampleFlags.Station ++ "/dewpoint",
            toString (truncTowardZero (sentinelReading.DewpointC.mul thousand).toRat)),
          ("mqweather/" ++ sampleFlags.Station ++ "/wind",
            toString (truncTowardZero (sentinelReading.WindKPH.mul thousand).toRat)) ]
      ∧ (publishAttempts (watchWeatherCycle amd64 sampleFlags sampleApi noError sentinelEnv).1).take 3 =
        [ ("mqweather/KXATEST1/temperature", "21567"),
          ("mqweather/KXATEST1/dewpoint", "-3000"),
          ("mqweather/KXATEST1/wind", "10999") ] :=
  ⟨rfl,
    scaled_payloads_truncate amd64 sampleFlags sampleApi noError sentinelEnv sentinelReading rfl
      (fits_of_truncate amd64 _ 21567 (by decide) (by decide))
      (fits_of_truncate amd64 _ (-3000) (by decide) (by decide))
      (fits_of_truncate amd64 _ 10999 (by decide) (by decide)),
    by decide⟩

/-! ## Fetch failures -/

theorem getConditions_of_rejected {Response : Type}
    (hasError : Option Response → Outcome (Option Error))
    (cond : ConditionsResponse Response) (err : Error)
    (h : hasError cond.Response = .ret (some err)) :
    getConditions hasError (.decoded cond) = .ret (some Conditions.zero, some err) := by
  simp only [getConditions, Wunderground.Conditions, h]

/-- C4: when the fetch returns an error, as it does for a decoded response
whose `HasError` is not nil, the iteration is the fetch, the line
`Could not read weather` with the error, and one sleep of
`time.Duration(Interval) * time.Second`, which is `Interval` seconds when that
product fits 64 bits; it makes no publish attempt, and the next iteration
follows the sleep. -/
theorem fetch_error_skips_publishing {Response : Type} (rt : Runtime) (flags : MainFlags)
    (w : Wunderground) (hasError : Option Response → Outcome (Option Error))
    (env : CycleEnv Response) (rest : List (CycleEnv Response))
    (c : Option Conditions) (err : Error)
    (h : getConditions hasError env.fetch = .ret (c, some err)) :
    watchWeatherCycle rt flags w hasError env =
        ([Event.fetch (conditionsUrl w flags.Station),
          Event.print ("Could not read weather " ++ err ++ "\n"),
          Event.sleep (sleepDuration flags)], none)
      ∧ publishAttempts (watchWeatherCycle rt flags w hasError env).1 = []
      ∧ watchWeather rt flags w hasError (env :: rest) =
          [Event.fetch (conditionsUrl w flags.Station),
            Event.print ("Could not read weather " ++ err ++ "\n"),
            Event.sleep (sleepDuration flags)] ++ watchWeather rt flags w hasError rest
      ∧ (-(2 : Int) ^ 63 ≤ flags.Interval * 1000000000
          ∧ flags.Interval * 1000000000 < (2 : Int) ^ 63 →
          sleepDuration flags = flags.Interval * 1000000000)
      ∧ (∀ (cond : ConditionsResponse Response) (e : Error),
          hasError cond.Response = .ret (some e) →
          getConditions hasError (.decoded cond) = .ret (some Conditions.zero, some e)) := by
  have hc := cycle_of_error rt flags w hasError env c err h
  refine ⟨hc, by rw [hc]; rfl, ?_, ?_, ?_⟩
  · simp only [watchWeather, hc]
  · intro hfit
    exact wrapInt64_of_fits _ hfit
  · intro cond e he
    exact getConditions_of_rejected hasError cond e he

theorem fetch_error_skips_publishing_witness :
    getConditions statusError rejectedEnv.fetch = .ret (some Conditions.zero, some "keynotfound")
      ∧ watchWeather amd64 sampleFlags sampleApi statusError [rejectedEnv, rejectedEnv] =
          [ Event.fetch "http://api.wunderground.com/api/key/conditions/q/KXATEST1.json",
            Event.print "Could not read weather keynotfound\n",
            Event.sleep 60000000000,
            Event.fetch "http://api.wunderground.com/api/key/conditions/q/KXATEST1.json",
            Event.print "Could not read weather keynotfound\n",
            Event.sleep 60000000000 ] :=
  ⟨rfl, ((fetch_error_skips_publishing amd64 sampleFlags sampleApi statusError rejectedEnv
    [rejectedEnv] (some Conditions.zero) "keynotfound" rfl).2.2.1).trans (by decide)⟩

/-- C5, as stated, fails: when the request fails and when the body does not
decode, `Wunderground.Conditions` panics and returns nothing to its caller. -/
theorem conditions_panics_on_fetch_failure :
    (∀ r, Wunderground.Conditions noError (.requestFailed "connection refused") ≠ .ret r)
      ∧ (∀ r, Wunderground.Conditions noError (.undecodable "unexpected EOF") ≠ .ret r)
      ∧ watchWeather amd64 sampleFlags sampleApi noError [undecodableEnv, sampleEnv] =
          [ Event.fetch "http://api.wunderground.com/api/key/conditions/q/KXATEST1.json",
            Event.panic (.logPanic "Error unmarshalling condition body unexpected EOF") ] := by
  refine ⟨?_, ?_, by decide⟩
  · intro r hr
    simp [Wunderground.Conditions] at hr
  · intro r hr
    simp [Wunderground.Conditions] at hr

/-- C5, amended: when the request fails or the body does not decode,
`Wunderground.Conditions` panics, for a body that does not decode through
`log.Panic` with the decoder's error, and the loop of `watchWeather` ends with
that panic after the fetch; an error value is returned only for a decoded
response whose `HasError` is not nil. -/
theorem conditions_fetch_failure_panics {Response : Type} (rt : Runtime) (flags : MainFlags)
    (w : Wunderground) (hasError : Option Response → Outcome (Option Error))
    (err : Error) (broker : Fin 5 → PublishResult) (rest : List (CycleEnv Response)) :
    (∃ p, Wunderground.Conditions hasError (.requestFailed err) = .panic p)
      ∧ Wunderground.Conditions hasError (.undecodable err)
          = .panic (.logPanic ("Error unmarshalling condition body " ++ err))
      ∧ (∃ p, watchWeather rt flags w hasError (⟨.requestFailed err, broker⟩ :: rest)
          = [Event.fetch (conditionsUrl w flags.Station), Event.panic p])
      ∧ watchWeather rt flags w hasError (⟨.undecodable err, broker⟩ :: rest)
          = [Event.fetch (conditionsUrl w flags.Station),
              Event.panic (.logPanic ("Error unmarshalling condition body " ++ err))]
      ∧ (∀ (cond : ConditionsResponse Response) (e : Error),
          hasError cond.Response = .ret (some e) →
          Wunderground.Conditions hasError (.decoded cond) = .ret (none, some e))
      ∧ (∀ (fetch : FetchResult Response) (r : Option (ConditionsResponse Response)) (e : Error),
          Wunderground.Conditions hasError fetch = .ret (r, some e) →
          ∃ cond, fetch = .decoded cond ∧ hasError cond.Response = .ret (some e)) := by
  refine ⟨⟨_, rfl⟩, rfl, ⟨Panic.nilDereference, ?_⟩, ?_, ?_, ?_⟩
  · simp [watchWeather, watchWeatherCycle, getConditions, Wunderground.Conditions]
  · simp [watchWeather, watchWeatherCycle, getConditions, Wunderground.Conditions]
  · intro cond e he
    simp only [Wunderground.Conditions, he]
  · intro fetch r e hr
    cases fetch with
    | requestFailed err => simp [Wunderground.Conditions] at hr
    | undecodable err => simp [Wunderground.Conditions] at hr
    | decoded cond =>
      refine ⟨cond, rfl, ?_⟩
      simp only [Wunderground.Conditions] at hr
      cases hh : hasError cond.Response with
      | panic p => rw [hh] at hr; simp at hr
      | ret o =>
        rw [hh] at hr
        cases o with
        | none => simp at hr
        | some e2 =>
          simp at hr
          rw [hr.2]

/-! ## A response without an observation -/

/-- C10 fails on the code: for a decoded response without an error status and
without `current_observation`, `getConditions` returns a nil pointer and a nil
error, and `watchWeather` panics on `conditions.TempC` right after the fetch. -/
theorem getConditions_nil_without_observation :
    Wunderground.Conditions noError noObservationEnv.fetch
        = .ret (some ⟨some (), none⟩, none)
      ∧ getConditions noError noObservationEnv.fetch = .ret (none, none)
      ∧ watchWeather amd64 sampleFlags sampleApi noError [noObservationEnv, sampleEnv] =
          [ Event.fetch "http://api.wunderground.com/api/key/conditions/q/KXATEST1.json",
            Event.panic .nilDereference ] :=
  ⟨rfl, rfl, by decide⟩

/-! ## The order of events -/

theorem cycle_phase {Response : Type} (rt : Runtime) (flags : MainFlags) (w : Wunderground)
    (hasError : Option Response → Outcome (Option Error)) (env : CycleEnv Response) :
    (∃ events, watchWeatherCycle rt flags w hasError env = (events, none)
        ∧ Phase.idle.run events = some Phase.idle)
      ∨ (∃ events p, watchWeatherCycle rt flags w hasError env = (events, some p)
        ∧ Phase.idle.run (events ++ [Event.panic p]) = some Phase.stopped) := by
  cases hg : getConditions hasError env.fetch with
  | panic p =>
    exact Or.inr ⟨_, p, cycle_of_panic rt flags w hasError env p hg, rfl⟩
  | ret r =>
    obtain ⟨c, e⟩ := r
    cases e with
    | some err =>
      exact Or.inl ⟨_, cycle_of_error rt flags w hasError env c err hg, rfl⟩
    | none =>
      cases c with
      | none => exact Or.inr ⟨_, _, cycle_of_nil rt flags w hasError env hg, rfl⟩
      | some c =>
        refine Or.inl ⟨_, cycle_of_reading rt flags w hasError env c hg, ?_⟩
        show Phase.inCycle.run _ = some Phase.idle
        simp only [Phase.run_append, Phase.run_publishStep, Option.bind]
        rfl

theorem watchWeather_phase {Response : Type} (rt : Runtime) (flags : MainFlags)
    (w : Wunderground) (hasError : Option Response → Outcome (Option Error))
    (envs : List (CycleEnv Response)) :
    Phase.idle.run (watchWeather rt flags w hasError envs) = some Phase.idle
      ∨ Phase.idle.run (watchWeather rt flags w hasError envs) = some Phase.stopped := by
  induction envs with
  | nil => exact Or.inl rfl
  | cons env rest ih =>
    rcases cycle_phase rt flags w hasError env with ⟨events, hc, hrun⟩ | ⟨events, p, hc, hrun⟩
    · simp only [watchWeather, hc, Phase.run_append, hrun, Option.bind]
      exact ih
    · simp only [watchWeather, hc]
      exact Or.inr hrun

/-- C9, as stated, fails: an iteration whose fetch fails on an undecodable body
is the fetch followed by the panic, with no error line of the loop, no sleep
and no further iteration. -/
theorem cycle_without_sleep_on_decode_failure :
    watchWeatherCycle amd64 sampleFlags sampleApi noError undecodableEnv =
        ([Event.fetch "http://api.wunderground.com/api/key/conditions/q/KXATEST1.json"],
          some (.logPanic "Error unmarshalling condition body unexpected EOF"))
      ∧ ∀ d, Event.sleep d ∉
          watchWeather amd64 sampleFlags sampleApi noError [undecodableEnv, sampleEnv] := by
  refine ⟨by decide, ?_⟩
  intro d hd
  have ht : watchWeather amd64 sampleFlags sampleApi noError [undecodableEnv, sampleEnv] =
      [ Event.fetch "http://api.wunderground.com/api/key/conditions/q/KXATEST1.json",
        Event.panic (.logPanic "Error unmarshalling condition body unexpected EOF") ] := by
    decide
  rw [ht] at hd
  simp at hd

/-- C9, amended: an iteration whose fetch returns a reading is the fetch, the
five publishes in order, each followed by its failure line when the broker
reports an error, and one sleep; an iteration whose fetch returns an error is
the fetch, the error line and one sleep; the sleep lasts
`time.Duration(Interval) * time.Second`, which is `Interval` seconds when that
product fits 64 bits; an iteration whose fetch panics is the fetch alone and
ends the loop. Every trace of the loop follows the step relation `Phase.step`:
a publish only occurs after the fetch of its iteration and before its sleep,
and a fetch only occurs first or right after the sleep of the iteration
before. -/
theorem watchWeather_event_order {Response : Type} (rt : Runtime) (flags : MainFlags)
    (w : Wunderground) (hasError : Option Response → Outcome (Option Error)) :
    (∀ (env : CycleEnv Response) (c : Conditions),
        getConditions hasError env.fetch = .ret (some c, none) →
        watchWeatherCycle rt flags w hasError env =
          (Event.fetch (conditionsUrl w flags.Station) ::
            (publishStep ("mqweather/" ++ flags.Station ++ "/temperature")
                (scaledPayload rt c.TempC) (env.broker 0)
              ++ publishStep ("mqweather/" ++ flags.Station ++ "/dewpoint")
                (scaledPayload rt c.DewpointC) (env.broker 1)
              ++ publishStep ("mqweather/" ++ flags.Station ++ "/wind")
                (scaledPayload rt c.WindKPH) (env.broker 2)
              ++ publishStep ("mqweather/" ++ flags.Station ++ "/pressure")
                c.PressureMB (env.broker 3)
              ++ publishStep ("mqweather/" ++ flags.Station ++ "/humidity")
                (stripPercent c.RelativeHumidity) (env.broker 4)
              ++ [Event.sleep (sleepDuration flags)]), none))
      ∧ (∀ (env : CycleEnv Response) (c : Option Conditions) (err : Error),
        getConditions hasError env.fetch = .ret (c, some err) →
        watchWeatherCycle rt flags w hasError env =
          ([Event.fetch (conditionsUrl w flags.Station),
            Event.print ("Could not read weather " ++ err ++ "\n"),
            Event.sleep (sleepDuration flags)], none))
      ∧ (∀ (env : CycleEnv Response) (p : Panic),
        getConditions hasError env.fetch = .panic p →
        watchWeatherCycle rt flags w hasError env =
          ([Event.fetch (conditionsUrl w flags.Station)], some p))
      ∧ (-(2 : Int) ^ 63 ≤ flags.Interval * 1000000000
          ∧ flags.Interval * 1000000000 < (2 : Int) ^ 63 →
          sleepDuration flags = flags.Interval * 1000000000)
      ∧ (∀ envs : List (CycleEnv Response),
          Phase.idle.run (watchWeather rt flags w hasError envs) = some Phase.idle
            ∨ Phase.idle.run (watchWeather rt flags w hasError envs) = some Phase.stopped) :=
  ⟨fun env c h => cycle_of_reading rt flags w hasError env c h,
    fun env c err h => cycle_of_error rt flags w hasError env c err h,
    fun env p h => cycle_of_panic rt flags w hasError env p h,
    fun hfit => wrapInt64_of_fits _ hfit,
    fun envs => watchWeather_phase rt flags w hasError envs⟩

theorem watchWeather_event_order_witness :
    getConditions noError windRejectedEnv.fetch = .ret (some sampleReading, none)
      ∧ watchWeatherCycle amd64 sampleFlags sampleApi noError windRejectedEnv =
        ([ Event.fetch "http://api.wunderground.com/api/key/conditions/q/KXATEST1.json",
           Event.publish "mqweather/KXATEST1/temperature" 0 false "20123",
           Event.publish "mqweather/KXATEST1/dewpoint" 0 false "15000",
           Event.publish "mqweather/KXATEST1/wind" 0 false "10999",
           Event.print "Failed to send message: rejected\n",
           Event.publish "mqweather/KXATEST1/pressure" 0 false "1013.2",
           Event.publish "mqweather/KXATEST1/humidity" 0 false "65",
           Event.sleep 60000000000 ], none) :=
  ⟨rfl, ((watchWeather_event_order amd64 sampleFlags sampleApi noError).1 windRejectedEnv
    sampleReading rfl).trans (by decide)⟩

end Mqweather
